import Mathlib

/-!
Shallow embedding of the chart-animator page
(`src/app/[locale]/chart-animator/page.tsx`) of the `chatbot-ui`
repository, together with proofs of the specified properties of its
point/path/animation logic.

Modelling conventions:

* React `useState` values and `useRef` cells are gathered into one record
  `ComponentState`; every event handler becomes a pure function
  `... → ComponentState → ComponentState`.
* JS `number` is embedded as `ℚ` (the code performs only field
  arithmetic, `Math.min`/`Math.max` and comparisons; no NaN/Infinity
  arises for the inputs considered, and hypotheses of theorems rule out
  division by zero where JS would produce NaN/Infinity).
* `requestAnimationFrame` returns an opaque handle, embedded as `Nat`;
  scheduling stores `some handle` in `frameRef`,
  `cancelAnimationFrame` clears it to `none`.
* `crypto.randomUUID()` is an external source of ids: the generated id
  is passed to the handler as an argument.
* `getBoundingClientRect()` is an external measurement: the rectangle is
  passed to the handler as an argument (`none` when `svgRef.current` is
  null).
* The `pathD` string `"M x% y% L x% y% …"` is injective in the sequence
  of coordinate pairs (JS number formatting is injective), so it is
  embedded as that sequence, `List (ℚ × ℚ)`; the two `useEffect`s with
  dependency `[pathD]` fire exactly when this value changes.
* `pathRef.current.getTotalLength()` is an external measurement passed
  in as an argument; `pathRef.current` is non-null exactly when the
  `<path>` element is rendered, i.e. when the point list is non-empty.
-/

/-- The source's `interface ChartPoint { id: string; x: number; y: number }`. -/
structure ChartPoint where
  id : String
  x : ℚ
  y : ℚ
deriving DecidableEq

/-- The source's `type AnimationState = "idle" | "running" | "paused"`. -/
inductive AnimationState where
  | idle
  | running
  | paused
deriving DecidableEq

/-- The component's `useState` values and `useRef` cells:
`imageSrc`, `points`, `draggingId`, `progress`, `pathLength`,
`animationState`, `speed`, and the refs `frameRef`, `lastTimestampRef`,
`isAnimatingRef` (`svgRef`/`pathRef` are external and passed to the
handlers that read them). -/
structure ComponentState where
  imageSrc : Option String
  points : List ChartPoint
  draggingId : Option String
  progress : ℚ
  pathLength : ℚ
  animationState : AnimationState
  speed : ℚ
  frameRef : Option Nat
  lastTimestampRef : Option ℚ
  isAnimatingRef : Bool
deriving DecidableEq

/-- The `useState` initial values: `imageSrc = null`, `points = []`,
`draggingId = null`, `progress = 0`, `pathLength = 0`,
`animationState = "idle"`, `speed = 120`; all refs start null/false. -/
def initialState : ComponentState :=
  { imageSrc := none
    points := []
    draggingId := none
    progress := 0
    pathLength := 0
    animationState := AnimationState.idle
    speed := 120
    frameRef := none
    lastTimestampRef := none
    isAnimatingRef := false }

/-- A `DOMRect` as returned by `getBoundingClientRect()`. -/
structure Rect where
  left : ℚ
  top : ℚ
  width : ℚ
  height : ℚ
deriving DecidableEq

/-- The client coordinates of a `React.PointerEvent`. -/
structure PointerEvent where
  clientX : ℚ
  clientY : ℚ
deriving DecidableEq

/-- The `pathD` memo. The source builds the string
`M x0% y0% L x1% y1% …` from the point list; the string is injective in
the sequence of coordinate pairs, which is what we keep. An empty point
list yields the empty path. -/
def pathD (points : List ChartPoint) : List (ℚ × ℚ) :=
  points.map fun p => (p.x, p.y)

/-- The source's `cancelAnimationFrameIfNeeded`: cancels the scheduled
callback (if any) and clears the handle. -/
def cancelAnimationFrameIfNeeded (s : ComponentState) : ComponentState :=
  { s with frameRef := none }

/-- The two `useEffect`s with dependency `[pathD]`, run in declaration
order when `pathD` changes: the first stores the measured path length
(`getTotalLength()` when the `<path>` is rendered, i.e. the point list
is non-empty; `0` otherwise); the second cancels any scheduled frame,
sets the state to `idle`, resets `progress` to 0 and clears the
timestamp/animating refs. -/
def runPathEffects (measured : ℚ) (s : ComponentState) : ComponentState :=
  { s with
    pathLength := if s.points.isEmpty then 0 else measured
    frameRef := none
    animationState := AnimationState.idle
    progress := 0
    lastTimestampRef := none
    isAnimatingRef := false }

/-- React's commit step after a handler updated `points`: both
`[pathD]` effects re-run exactly when the new `pathD` differs from the
previous one (dependency comparison). `measured` is the length the DOM
reports for the new path. -/
def commitPoints (measured : ℚ) (sOld sNew : ComponentState) : ComponentState :=
  if pathD sNew.points = pathD sOld.points then sNew
  else runPathEffects measured sNew

/-- The source's `getRelativeCoordinates`: converts client coordinates to canvas
percentages and clamps each axis to `[0,100]`
(`Math.min(100, Math.max(0, x))`). Returns `null` when the svg ref is
unset. -/
def getRelativeCoordinates (rect : Option Rect) (e : PointerEvent) :
    Option (ℚ × ℚ) :=
  match rect with
  | none => none
  | some r =>
    let x := (e.clientX - r.left) / r.width * 100
    let y := (e.clientY - r.top) / r.height * 100
    some (min 100 (max 0 x), min 100 (max 0 y))

/-- The squared pixel distance from the pointer to a point, as computed
inside `findNearestPoint` (the source takes `Math.sqrt` of this; since
`Math.sqrt` is strictly monotone on non-negative reals, every comparison
the source makes on distances is made here on squared distances). -/
def distSq (r : Rect) (e : PointerEvent) (p : ChartPoint) : ℚ :=
  let px := p.x / 100 * r.width
  let py := p.y / 100 * r.height
  let dx := e.clientX - r.left - px
  let dy := e.clientY - r.top - py
  dx * dx + dy * dy

/-- The loop of `findNearestPoint`: scans points left to right, keeping
the first point realising the minimal distance (`distance < minDistance`
is strict). `best`/`bestD` is the accumulator after the first point. -/
def findNearestGo (r : Rect) (e : PointerEvent) :
    ChartPoint → ℚ → List ChartPoint → ChartPoint × ℚ
  | best, bestD, [] => (best, bestD)
  | best, bestD, p :: ps =>
    if distSq r e p < bestD then findNearestGo r e p (distSq r e p) ps
    else findNearestGo r e best bestD ps

/-- The source's `findNearestPoint`: nearest-point hit testing. With no rect or no
points the minimum stays `Infinity` and the result is `null`; otherwise
the first nearest point is returned when its distance is `< 18` px
(squared: `< 324`). -/
def findNearestPoint (rect : Option Rect) (e : PointerEvent)
    (points : List ChartPoint) : Option ChartPoint :=
  match rect with
  | none => none
  | some r =>
    match points with
    | [] => none
    | p :: ps =>
      if (findNearestGo r e p (distSq r e p) ps).2 < 18 * 18 then
        some (findNearestGo r e p (distSq r e p) ps).1
      else none

/-- The source's `handlePointerDown`: hit-test first; a hit starts dragging that
point, otherwise a new point with a fresh id (`crypto.randomUUID()`,
passed as `newId`) at the clamped relative coordinates is appended. -/
def handlePointerDown (rect : Option Rect) (newId : String)
    (e : PointerEvent) (s : ComponentState) : ComponentState :=
  match findNearestPoint rect e s.points with
  | some nearest => { s with draggingId := some nearest.id }
  | none =>
    match getRelativeCoordinates rect e with
    | none => s
    | some (x, y) =>
      { s with points := s.points ++ [{ id := newId, x := x, y := y }] }

/-- The source's `handlePointerMove`: while a drag is active, moves the dragged point
to the clamped relative coordinates (a `map` keeping every other point
unchanged); otherwise a no-op. -/
def handlePointerMove (rect : Option Rect) (e : PointerEvent)
    (s : ComponentState) : ComponentState :=
  match s.draggingId with
  | none => s
  | some dragId =>
    match getRelativeCoordinates rect e with
    | none => s
    | some (x, y) =>
      { s with
        points := s.points.map fun p =>
          if p.id = dragId then { p with x := x, y := y } else p }

/-- The source's `stopDragging`: clears the dragged-id marker. -/
def stopDragging (s : ComponentState) : ComponentState :=
  { s with draggingId := none }

/-- The source's `startAnimation`: no-op when `points.length < 2 || pathLength === 0`;
otherwise marks the animating ref, sets the state to `running`, cancels
any pending frame and schedules `step` (handle `newFrame`). -/
def startAnimation (newFrame : Nat) (s : ComponentState) : ComponentState :=
  if s.points.length < 2 ∨ s.pathLength = 0 then s
  else
    { s with
      isAnimatingRef := true
      animationState := AnimationState.running
      frameRef := some newFrame }

/-- The elapsed seconds computed by a `step` invocation at `timestamp`:
when `lastTimestampRef` is null it is first set to `timestamp`, making
the delta zero; otherwise the delta is `(timestamp - last) / 1000`. -/
def stepElapsed (timestamp : ℚ) (s : ComponentState) : ℚ :=
  match s.lastTimestampRef with
  | none => 0
  | some last => (timestamp - last) / 1000

/-- The per-frame callback `step`, with the `speed` and `pathLength`
captured by the closure at `startAnimation` time passed explicitly.
Returns unchanged when the animating ref is clear; otherwise advances
`progress` by `speed·Δt / pathLength` clamped at 1 (zero delta when the
captured length is not positive), records the timestamp, and on
reaching 1 transitions to `paused`, cancels the frame and clears the
animating ref — else reschedules itself (handle `newFrame`). The
`setProgress` functional updater is modelled as executing in place. -/
def step (speed pathLength : ℚ) (newFrame : Nat) (timestamp : ℚ)
    (s : ComponentState) : ComponentState :=
  if s.isAnimatingRef = false then s
  else
    let deltaSeconds := stepElapsed timestamp s
    let distance := speed * deltaSeconds
    let deltaProgress := if pathLength > 0 then distance / pathLength else 0
    let next := min 1 (s.progress + deltaProgress)
    let s1 := { s with lastTimestampRef := some timestamp, progress := next }
    let s2 :=
      if 1 ≤ next then
        { s1 with
          animationState := AnimationState.paused
          frameRef := none
          isAnimatingRef := false }
      else s1
    if s2.isAnimatingRef then { s2 with frameRef := some newFrame } else s2

/-- The source's `pauseAnimation`: cancels any scheduled frame, sets the state to
`paused`, clears the timestamp and animating refs. Unguarded: it reads
none of the current state. -/
def pauseAnimation (s : ComponentState) : ComponentState :=
  { s with
    frameRef := none
    animationState := AnimationState.paused
    lastTimestampRef := none
    isAnimatingRef := false }

/-- The source's `resetAnimation`: cancels any scheduled frame, resets `progress` to
0, sets the state to `idle`, clears the timestamp and animating refs. -/
def resetAnimation (s : ComponentState) : ComponentState :=
  { s with
    frameRef := none
    progress := 0
    animationState := AnimationState.idle
    lastTimestampRef := none
    isAnimatingRef := false }

/-- The speed slider's `onChange`: `setSpeed(Number(event.target.value))`
— the raw state setter, storing the value as given. -/
def setSpeedControl (value : ℚ) (s : ComponentState) : ComponentState :=
  { s with speed := value }

/-- One click-to-add interaction: the canvas rectangle at event time, the
pointer event, and the id `crypto.randomUUID()` generates for the new
point (when one is created). -/
structure ClickEvent where
  rect : Rect
  ev : PointerEvent
  newId : String
deriving DecidableEq

/-- A `ClickEvent` delivered to `handlePointerDown`. -/
def applyClick (c : ClickEvent) (s : ComponentState) : ComponentState :=
  handlePointerDown (some c.rect) c.newId c.ev s

/-- A sequence of pointer-down events delivered in order. -/
def applyClicks (s : ComponentState) : List ClickEvent → ComponentState
  | [] => s
  | c :: cs => applyClicks (applyClick c s) cs

/-- The point a click appends when it misses every existing point: the
fresh id with the clamped relative coordinates, exactly as
`handlePointerDown` builds it. -/
def clickPoint (c : ClickEvent) : ChartPoint :=
  { id := c.newId
    x := min 100 (max 0 ((c.ev.clientX - c.rect.left) / c.rect.width * 100))
    y := min 100 (max 0 ((c.ev.clientY - c.rect.top) / c.rect.height * 100)) }

/-- Computes whether every click in the sequence lands outside the 18 px
capture radius of all points existing when it is delivered. -/
def allMiss : ComponentState → List ClickEvent → Bool
  | _, [] => true
  | s, c :: cs =>
    (findNearestPoint (some c.rect) c.ev s.points).isNone &&
      allMiss (applyClick c s) cs

/-- A concrete state with two points and a measured path length of 100,
used to evaluate the animation loop on explicit inputs. -/
def twoPointState : ComponentState :=
  { initialState with
    points := [{ id := "a", x := 0, y := 0 }, { id := "b", x := 30, y := 0 }]
    pathLength := 100 }

/-- A concrete 100×100 canvas rectangle at the viewport origin. -/
def rect0 : Rect :=
  { left := 0, top := 0, width := 100, height := 100 }

/-- A concrete pointer event at client position (10, 10). -/
def ev0 : PointerEvent :=
  { clientX := 10, clientY := 10 }

/-- A concrete state with one point at (10%, 10%), i.e. at pixel (10, 10)
on `rect0` — distance 0 from `ev0`. -/
def onePointState : ComponentState :=
  { initialState with points := [{ id := "a", x := 10, y := 10 }] }

/-- A concrete state with one point at (90%, 90%), i.e. at pixel (90, 90)
on `rect0` — far outside the capture radius of `ev0`. -/
def farPointState : ComponentState :=
  { initialState with points := [{ id := "far", x := 90, y := 90 }] }

/-- The state after `startAnimation` (frame handle 1) on `twoPointState`. -/
def runStateA : ComponentState :=
  { twoPointState with
    isAnimatingRef := true
    animationState := AnimationState.running
    frameRef := some 1 }

/-- The state after the run's first frame, delivered at timestamp 0
(zero elapsed time, frame handle 2 rescheduled). -/
def runStateB : ComponentState :=
  { runStateA with lastTimestampRef := some 0, frameRef := some 2 }

/-- The state after the run's second frame, delivered at timestamp 1000:
one second at 120 px/s over a 100 px path pushes progress to 1, so the
run ends `paused` with no frame scheduled — but `lastTimestampRef` keeps
the value 1000. -/
def runStateC : ComponentState :=
  { runStateB with
    lastTimestampRef := some 1000
    progress := 1
    animationState := AnimationState.paused
    frameRef := none
    isAnimatingRef := false }

/-- The state after calling `startAnimation` (frame handle 3) again,
directly after the finished run: the stale timestamp 1000 survives. -/
def runStateD : ComponentState :=
  { runStateC with
    isAnimatingRef := true
    animationState := AnimationState.running
    frameRef := some 3 }

/-- A concrete `running` state whose progress is already 1, used to
exercise the finish branch of the per-frame callback on explicit
inputs. -/
def fullProgressRunning : ComponentState :=
  { twoPointState with
    progress := 1
    animationState := AnimationState.running
    isAnimatingRef := true
    frameRef := some 1 }

/-- A concrete pointer event at client position (60, 60): on `rect0` it
is far (squared distance ≥ 4500) from both points of `twoPointState`. -/
def ev9 : PointerEvent :=
  { clientX := 60, clientY := 60 }

/-- A concrete `running` state over the two points of `twoPointState`
with point `"a"` being dragged. -/
def runningDragState : ComponentState :=
  { twoPointState with
    animationState := AnimationState.running
    isAnimatingRef := true
    frameRef := some 5
    draggingId := some "a" }

/-- A concrete idle state with two points and a drag marker on `"a"`,
used to exercise `handlePointerMove` on explicit inputs. -/
def dragState8 : ComponentState :=
  { initialState with
    points := [{ id := "a", x := 0, y := 0 }, { id := "b", x := 30, y := 40 }]
    draggingId := some "a" }

/-- A concrete click on `rect0` at (10, 10), generating id `"p1"`. -/
def click1 : ClickEvent :=
  { rect := rect0, ev := ev0, newId := "p1" }

/-- A concrete click on `rect0` whose raw pointer position (200, -50)
lies outside the canvas rectangle on both axes, generating id `"p2"`. -/
def click2 : ClickEvent :=
  { rect := rect0, ev := { clientX := 200, clientY := -50 }, newId := "p2" }

/-! ### Helper lemmas about the animation loop -/

theorem startAnimation_lastTimestampRef (newFrame : Nat) (s : ComponentState) :
    (startAnimation newFrame s).lastTimestampRef = s.lastTimestampRef := by
  unfold startAnimation; split <;> rfl

theorem startAnimation_progress (newFrame : Nat) (s : ComponentState) :
    (startAnimation newFrame s).progress = s.progress := by
  unfold startAnimation; split <;> rfl

theorem step_of_not_animating (sp pl : ℚ) (newFrame : Nat) (ts : ℚ)
    (s : ComponentState) (h : s.isAnimatingRef = false) :
    step sp pl newFrame ts s = s := by
  unfold step; rw [if_pos h]

theorem step_eq_of_animating (sp pl : ℚ) (newFrame : Nat) (ts : ℚ)
    (s : ComponentState) (h : s.isAnimatingRef = true) :
    step sp pl newFrame ts s =
      if 1 ≤ min 1 (s.progress + (if pl > 0 then sp * stepElapsed ts s / pl else 0)) then
        { s with
          lastTimestampRef := some ts
          progress := min 1 (s.progress + (if pl > 0 then sp * stepElapsed ts s / pl else 0))
          animationState := AnimationState.paused
          frameRef := none
          isAnimatingRef := false }
      else
        { s with
          lastTimestampRef := some ts
          progress := min 1 (s.progress + (if pl > 0 then sp * stepElapsed ts s / pl else 0))
          frameRef := some newFrame } := by
  by_cases h1 : 1 ≤ min 1 (s.progress + (if pl > 0 then sp * stepElapsed ts s / pl else 0))
  · simp [step, h, h1]
  · simp [step, h, h1]

/-! ### C9 — reset() is idempotent -/

/-- C9: calling `resetAnimation` twice in a row yields exactly the same
state as calling it once (animation state `idle`, progress 0, no
scheduled callback, cleared elapsed-time tracking). -/
theorem resetAnimation_idempotent (s : ComponentState) :
    resetAnimation (resetAnimation s) = resetAnimation s := rfl

/-! ### C10 — pause() is unguarded -/

/-- C10: `pauseAnimation` reads none of the current state: from any
state — including `idle` with progress 0 and no scheduled callback — it
sets the animation state to `paused`, leaves `progress` unchanged and
cancels any scheduled frame; in particular pausing the initial `idle`
state yields `paused` with progress 0. -/
theorem pauseAnimation_unguarded (s : ComponentState) :
    (pauseAnimation s).animationState = AnimationState.paused ∧
    (pauseAnimation s).progress = s.progress ∧
    (pauseAnimation s).frameRef = none ∧
    (pauseAnimation s).lastTimestampRef = none ∧
    (pauseAnimation initialState).animationState = AnimationState.paused ∧
    (pauseAnimation initialState).progress = 0 :=
  ⟨rfl, rfl, rfl, rfl, rfl, rfl⟩

/-! ### C5 — start() is a no-op with < 2 points or zero path length -/

/-- C5: `startAnimation` with fewer than 2 points or measured path
length 0 returns before touching anything: the whole component state is
unchanged and no per-frame callback is scheduled. -/
theorem startAnimation_noop_of_invalid (newFrame : Nat) (s : ComponentState)
    (h : s.points.length < 2 ∨ s.pathLength = 0) :
    startAnimation newFrame s = s := by
  unfold startAnimation; rw [if_pos h]

theorem startAnimation_noop_of_invalid_witness :
    startAnimation 7 initialState = initialState :=
  startAnimation_noop_of_invalid 7 initialState (Or.inl (by decide))

/-! ### C2 — setSpeed and the [20,300] range -/

/-- C2 counterexample: the claim says every numeric value passed to
`setSpeed` is clamped into [20,300]; but the slider's `onChange` stores
`Number(event.target.value)` through the raw state setter with no
clamping, so the value 1000 is stored as 1000. -/
theorem setSpeed_not_clamped :
    ¬ (20 ≤ (setSpeedControl 1000 initialState).speed ∧
       (setSpeedControl 1000 initialState).speed ≤ 300) := by
  decide

/-- C2 amended: `setSpeed` stores the given value unchanged — no
clamping is performed by the code (the [20,300] bound is enforced only
by the range input's `min`/`max` attributes, i.e. outside the stored
setter) — so the stored speed lies in [20,300] exactly when the supplied
value already does. -/
theorem setSpeed_stores_value (value : ℚ) (s : ComponentState)
    (h1 : 20 ≤ value) (h2 : value ≤ 300) :
    (setSpeedControl value s).speed = value ∧
    20 ≤ (setSpeedControl value s).speed ∧
    (setSpeedControl value s).speed ≤ 300 :=
  ⟨rfl, h1, h2⟩

theorem setSpeed_stores_value_witness :
    (setSpeedControl 120 initialState).speed = 120 ∧
    20 ≤ (setSpeedControl 120 initialState).speed ∧
    (setSpeedControl 120 initialState).speed ≤ 300 :=
  setSpeed_stores_value 120 initialState (by norm_num) (by norm_num)

/-! ### C1 — first frame of a run and the elapsed-time tracking -/

/-- C1 counterexample: run the loop on `twoPointState` until progress
reaches 1 (the run ends in `paused`); `lastTimestampRef` still holds the
final timestamp 1000, so starting a new run directly and delivering its
first callback at timestamp 3000 computes 2 seconds of elapsed time, not
zero — the gap after a finish-by-reaching-1 is counted. -/
theorem firstFrame_counts_gap_after_finish :
    ((step 120 100 2 1000 (step 120 100 2 0 (startAnimation 1 twoPointState))).progress = 1 ∧
     (step 120 100 2 1000 (step 120 100 2 0 (startAnimation 1 twoPointState))).animationState
        = AnimationState.paused) ∧
    stepElapsed 3000
      (startAnimation 3
        (step 120 100 2 1000 (step 120 100 2 0 (startAnimation 1 twoPointState)))) ≠ 0 := by
  have hA : startAnimation 1 twoPointState = runStateA := by
    unfold startAnimation
    rw [if_neg (by norm_num [twoPointState, initialState])]
    rfl
  have hB : step 120 100 2 0 runStateA = runStateB := by
    rw [step_eq_of_animating _ _ _ _ _ rfl]
    norm_num [stepElapsed, runStateA, runStateB, twoPointState, initialState]
  have hC : step 120 100 2 1000 runStateB = runStateC := by
    rw [step_eq_of_animating _ _ _ _ _ rfl]
    norm_num [stepElapsed, runStateA, runStateB, runStateC, twoPointState, initialState]
  have hD : startAnimation 3 runStateC = runStateD := by
    unfold startAnimation
    rw [if_neg (by norm_num [runStateC, runStateB, runStateA, twoPointState, initialState])]
    rfl
  rw [hA, hB, hC, hD]
  refine ⟨⟨rfl, rfl⟩, ?_⟩
  norm_num [stepElapsed, runStateD, runStateC, runStateB, runStateA, twoPointState,
    initialState]

/-- C1 amended: the first per-frame callback of a run computes zero
elapsed time (and leaves progress unchanged) whenever the run starts
from a state whose elapsed-time tracking is cleared — which `pause`,
`reset` and the path-change effect all guarantee; a run that ends by
progress reaching 1 does not clear the tracking, so a start directly
after it counts the intervening gap
(`firstFrame_counts_gap_after_finish`). -/
theorem firstFrame_elapsed_zero_of_cleared (newFrame newFrame2 : Nat)
    (sp pl ts m : ℚ) (s t : ComponentState)
    (h : s.lastTimestampRef = none) (hp : s.progress ≤ 1) :
    stepElapsed ts (startAnimation newFrame s) = 0 ∧
    (step sp pl newFrame2 ts (startAnimation newFrame s)).progress = s.progress ∧
    (pauseAnimation t).lastTimestampRef = none ∧
    (resetAnimation t).lastTimestampRef = none ∧
    (runPathEffects m t).lastTimestampRef = none := by
  have hl : (startAnimation newFrame s).lastTimestampRef = none := by
    rw [startAnimation_lastTimestampRef]; exact h
  have he : stepElapsed ts (startAnimation newFrame s) = 0 := by
    simp [stepElapsed, hl]
  refine ⟨he, ?_, rfl, rfl, rfl⟩
  by_cases ha : (startAnimation newFrame s).isAnimatingRef = true
  · rw [step_eq_of_animating _ _ _ _ _ ha, he]
    have hz : (if pl > 0 then sp * 0 / pl else 0) = 0 := by split <;> simp
    rw [hz, startAnimation_progress]
    have hmin : min 1 (s.progress + 0) = s.progress := by
      rw [add_zero]; exact min_eq_right hp
    rw [hmin]
    split <;> rfl
  · rw [step_of_not_animating _ _ _ _ _ (by simpa using ha)]
    exact startAnimation_progress _ _

theorem firstFrame_elapsed_zero_of_cleared_witness :
    stepElapsed 2000 (startAnimation 1 twoPointState) = 0 ∧
    (step 120 100 2 2000 (startAnimation 1 twoPointState)).progress
        = twoPointState.progress ∧
    (pauseAnimation initialState).lastTimestampRef = none ∧
    (resetAnimation initialState).lastTimestampRef = none ∧
    (runPathEffects 0 initialState).lastTimestampRef = none :=
  firstFrame_elapsed_zero_of_cleared 1 2 120 100 2000 0 twoPointState initialState
    rfl (by decide)

/-! ### C4 — progress invariants of the per-frame callback -/

/-- C4: while the loop is running (the animating ref set by `start` is
still set), a frame with non-negative elapsed time and positive captured
speed leaves progress non-decreasing and within [0,1]; and whenever
progress reaches 1 the state transitions to `paused`, the animating ref
is cleared and no further frame is scheduled. -/
theorem step_progress_invariants (sp pl : ℚ) (newFrame : Nat) (ts : ℚ)
    (s : ComponentState)
    (hrun : s.isAnimatingRef = true)
    (hp0 : 0 ≤ s.progress) (hp1 : s.progress ≤ 1)
    (hdt : 0 ≤ stepElapsed ts s) (hsp : 0 < sp) :
    s.progress ≤ (step sp pl newFrame ts s).progress ∧
    0 ≤ (step sp pl newFrame ts s).progress ∧
    (step sp pl newFrame ts s).progress ≤ 1 ∧
    ((step sp pl newFrame ts s).progress = 1 →
      (step sp pl newFrame ts s).animationState = AnimationState.paused ∧
      (step sp pl newFrame ts s).frameRef = none ∧
      (step sp pl newFrame ts s).isAnimatingRef = false) := by
  rw [step_eq_of_animating _ _ _ _ _ hrun]
  set dp := (if pl > 0 then sp * stepElapsed ts s / pl else 0) with hdp
  have hdp0 : 0 ≤ dp := by
    rw [hdp]
    by_cases hpl : pl > 0
    · rw [if_pos hpl]
      exact div_nonneg (mul_nonneg hsp.le hdt) hpl.le
    · rw [if_neg hpl]
  have hmono : s.progress ≤ min 1 (s.progress + dp) :=
    le_min hp1 (le_add_of_nonneg_right hdp0)
  have h0 : 0 ≤ min 1 (s.progress + dp) :=
    le_min (by norm_num) (by linarith)
  have h1 : min 1 (s.progress + dp) ≤ 1 := min_le_left _ _
  by_cases hc : 1 ≤ min 1 (s.progress + dp)
  · rw [if_pos hc]
    exact ⟨hmono, h0, h1, fun _ => ⟨rfl, rfl, rfl⟩⟩
  · rw [if_neg hc]
    exact ⟨hmono, h0, h1, fun hcontra => absurd (le_of_eq hcontra.symm) hc⟩

theorem step_progress_invariants_witness :
    fullProgressRunning.progress ≤ (step 120 100 2 500 fullProgressRunning).progress ∧
    0 ≤ (step 120 100 2 500 fullProgressRunning).progress ∧
    (step 120 100 2 500 fullProgressRunning).progress ≤ 1 ∧
    (step 120 100 2 500 fullProgressRunning).animationState = AnimationState.paused ∧
    (step 120 100 2 500 fullProgressRunning).frameRef = none ∧
    (step 120 100 2 500 fullProgressRunning).isAnimatingRef = false := by
  have h := step_progress_invariants 120 100 2 500 fullProgressRunning rfl
    (by decide) (by decide) (by decide) (by decide)
  have p1 : (step 120 100 2 500 fullProgressRunning).progress = 1 := by
    rw [step_eq_of_animating _ _ _ _ _ rfl]
    simp [stepElapsed, fullProgressRunning, twoPointState, initialState]
  obtain ⟨m, z, o, fin⟩ := h
  obtain ⟨pa, fr, ia⟩ := fin p1
  exact ⟨m, z, o, pa, fr, ia⟩

/-! ### C3 — point-list mutations invalidate the animation -/

theorem commitPoints_of_ne (m : ℚ) (sOld sNew : ComponentState)
    (h : pathD sNew.points ≠ pathD sOld.points) :
    commitPoints m sOld sNew = runPathEffects m sNew := by
  unfold commitPoints
  rw [if_neg h]

/-- C3: adding a point (a pointer-down that hits no existing point) or
moving a point during a drag (a pointer-move whose clamped coordinates
differ from the dragged point's), performed while `running` or `paused`,
changes `pathD`, so both `[pathD]` effects fire and the committed state
is `idle` with progress 0 and no scheduled per-frame callback. -/
theorem pointMutation_resets_animation (s : ComponentState) (m : ℚ)
    (rect : Option Rect) (e : PointerEvent) (newId : String)
    (_hstate : s.animationState = AnimationState.running ∨
      s.animationState = AnimationState.paused) :
    ((findNearestPoint rect e s.points = none ∧
        (getRelativeCoordinates rect e).isSome) →
      (commitPoints m s (handlePointerDown rect newId e s)).animationState
          = AnimationState.idle ∧
      (commitPoints m s (handlePointerDown rect newId e s)).progress = 0 ∧
      (commitPoints m s (handlePointerDown rect newId e s)).frameRef = none) ∧
    (∀ d : String, ∀ p : ChartPoint, ∀ x y : ℚ,
      s.draggingId = some d → p ∈ s.points → p.id = d →
      getRelativeCoordinates rect e = some (x, y) → (x, y) ≠ (p.x, p.y) →
      (commitPoints m s (handlePointerMove rect e s)).animationState
          = AnimationState.idle ∧
      (commitPoints m s (handlePointerMove rect e s)).progress = 0 ∧
      (commitPoints m s (handlePointerMove rect e s)).frameRef = none) := by
  constructor
  · rintro ⟨hfind, hrel⟩
    obtain ⟨⟨x, y⟩, hxy⟩ := Option.isSome_iff_exists.mp hrel
    have hpd : (handlePointerDown rect newId e s).points
        = s.points ++ [{ id := newId, x := x, y := y }] := by
      unfold handlePointerDown
      rw [hfind, hxy]
    have hne : pathD (handlePointerDown rect newId e s).points ≠ pathD s.points := by
      rw [hpd]
      intro hcontra
      have hlen := congrArg List.length hcontra
      simp [pathD] at hlen
    rw [commitPoints_of_ne _ _ _ hne]
    exact ⟨rfl, rfl, rfl⟩
  · intro d p x y hdrag hmem hid hrel hnexy
    have hpm : (handlePointerMove rect e s).points
        = s.points.map fun q =>
            if q.id = d then { q with x := x, y := y } else q := by
      unfold handlePointerMove
      rw [hdrag, hrel]
    have hnepd : pathD (handlePointerMove rect e s).points ≠ pathD s.points := by
      rw [hpm]
      intro hcontra
      unfold pathD at hcontra
      rw [List.map_map] at hcontra
      have hp := List.map_inj_left.mp hcontra p hmem
      simp only [Function.comp, hid, if_pos] at hp
      exact hnexy (by simpa using hp)
    rw [commitPoints_of_ne _ _ _ hnepd]
    exact ⟨rfl, rfl, rfl⟩

theorem runningDragState_miss :
    findNearestPoint (some rect0) ev9 runningDragState.points = none := by
  norm_num [findNearestPoint, findNearestGo, distSq, runningDragState,
    twoPointState, initialState, rect0, ev9]

theorem ev9_relative :
    getRelativeCoordinates (some rect0) ev9 = some (60, 60) := by
  norm_num [getRelativeCoordinates, rect0, ev9]

theorem pointMutation_resets_animation_witness :
    ((commitPoints 150 runningDragState
        (handlePointerDown (some rect0) "w" ev9 runningDragState)).animationState
        = AnimationState.idle ∧
     (commitPoints 150 runningDragState
        (handlePointerDown (some rect0) "w" ev9 runningDragState)).progress = 0 ∧
     (commitPoints 150 runningDragState
        (handlePointerDown (some rect0) "w" ev9 runningDragState)).frameRef = none) ∧
    ((commitPoints 150 runningDragState
        (handlePointerMove (some rect0) ev9 runningDragState)).animationState
        = AnimationState.idle ∧
     (commitPoints 150 runningDragState
        (handlePointerMove (some rect0) ev9 runningDragState)).progress = 0 ∧
     (commitPoints 150 runningDragState
        (handlePointerMove (some rect0) ev9 runningDragState)).frameRef = none) := by
  have h := pointMutation_resets_animation runningDragState 150 (some rect0) ev9 "w"
    (Or.inl rfl)
  refine ⟨h.1 ⟨runningDragState_miss, by rw [ev9_relative]; rfl⟩, ?_⟩
  exact h.2 "a" { id := "a", x := 0, y := 0 } 60 60 rfl (by decide) rfl
    ev9_relative (by decide)

/-! ### C6 — capture radius and hit testing -/

theorem findNearestGo_spec (r : Rect) (e : PointerEvent) (ps : List ChartPoint) :
    ∀ best : ChartPoint, ∀ bestD : ℚ, bestD = distSq r e best →
      (findNearestGo r e best bestD ps).2
          = distSq r e (findNearestGo r e best bestD ps).1 ∧
      ((findNearestGo r e best bestD ps).1 = best ∨
        (findNearestGo r e best bestD ps).1 ∈ ps) ∧
      (findNearestGo r e best bestD ps).2 ≤ bestD ∧
      ∀ p ∈ ps, (findNearestGo r e best bestD ps).2 ≤ distSq r e p := by
  induction ps with
  | nil =>
    intro best bestD hb
    simp [findNearestGo, hb]
  | cons q qs ih =>
    intro best bestD hb
    unfold findNearestGo
    by_cases h : distSq r e q < bestD
    · rw [if_pos h]
      obtain ⟨h1, h2, h3, h4⟩ := ih q (distSq r e q) rfl
      refine ⟨h1, ?_, le_trans h3 h.le, ?_⟩
      · rcases h2 with h2 | h2
        · exact Or.inr (by rw [h2]; exact List.mem_cons_self q qs)
        · exact Or.inr (List.mem_cons_of_mem q h2)
      · intro p hp
        rcases List.mem_cons.mp hp with rfl | hp'
        · exact h3
        · exact h4 p hp'
    · rw [if_neg h]
      obtain ⟨h1, h2, h3, h4⟩ := ih best bestD hb
      refine ⟨h1, ?_, h3, ?_⟩
      · rcases h2 with h2 | h2
        · exact Or.inl h2
        · exact Or.inr (List.mem_cons_of_mem q h2)
      · intro p hp
        rcases List.mem_cons.mp hp with rfl | hp'
        · exact le_trans h3 (not_lt.mp h)
        · exact h4 p hp'

/-- C6: a pointer-down whose squared pixel distance to some existing
point is below the capture radius (18 px, strict comparison as in the
source) adds no point and marks the first nearest point's id as being
dragged; and whenever a pointer-down did change the point list, no
existing point was within the capture radius. -/
theorem pointerDown_capture_or_append (r : Rect) (e : PointerEvent)
    (newId : String) (s : ComponentState) :
    ((∃ p ∈ s.points, distSq r e p < 18 * 18) →
      ∃ q : ChartPoint,
        findNearestPoint (some r) e s.points = some q ∧
        (handlePointerDown (some r) newId e s).points = s.points ∧
        (handlePointerDown (some r) newId e s).draggingId = some q.id ∧
        q ∈ s.points ∧ distSq r e q < 18 * 18 ∧
        ∀ p ∈ s.points, distSq r e q ≤ distSq r e p) ∧
    ((handlePointerDown (some r) newId e s).points ≠ s.points →
      ∀ p ∈ s.points, ¬ distSq r e p < 18 * 18) := by
  have part1 : (∃ p ∈ s.points, distSq r e p < 18 * 18) →
      ∃ q : ChartPoint,
        findNearestPoint (some r) e s.points = some q ∧
        (handlePointerDown (some r) newId e s).points = s.points ∧
        (handlePointerDown (some r) newId e s).draggingId = some q.id ∧
        q ∈ s.points ∧ distSq r e q < 18 * 18 ∧
        ∀ p ∈ s.points, distSq r e q ≤ distSq r e p := by
    rintro ⟨p0, hmem, hdist⟩
    obtain ⟨p, ps, hps⟩ : ∃ p ps, s.points = p :: ps := by
      cases hl : s.points with
      | nil => rw [hl] at hmem; cases hmem
      | cons a l => exact ⟨a, l, rfl⟩
    obtain ⟨h1, h2, h3, h4⟩ := findNearestGo_spec r e ps p (distSq r e p) rfl
    have hm2 : (findNearestGo r e p (distSq r e p) ps).2 < 18 * 18 := by
      have hle : (findNearestGo r e p (distSq r e p) ps).2 ≤ distSq r e p0 := by
        rw [hps] at hmem
        rcases List.mem_cons.mp hmem with rfl | hmem'
        · exact h3
        · exact h4 p0 hmem'
      exact lt_of_le_of_lt hle hdist
    have hfind : findNearestPoint (some r) e s.points
        = some (findNearestGo r e p (distSq r e p) ps).1 := by
      rw [hps]
      show (if (findNearestGo r e p (distSq r e p) ps).2 < 18 * 18 then
          some (findNearestGo r e p (distSq r e p) ps).1 else none)
        = some (findNearestGo r e p (distSq r e p) ps).1
      rw [if_pos hm2]
    have hhd : handlePointerDown (some r) newId e s
        = { s with
            draggingId := some (findNearestGo r e p (distSq r e p) ps).1.id } := by
      unfold handlePointerDown
      rw [hfind]
    refine ⟨(findNearestGo r e p (distSq r e p) ps).1, hfind, ?_, ?_, ?_, ?_, ?_⟩
    · rw [hhd]
    · rw [hhd]
    · rw [hps]
      rcases h2 with h2 | h2
      · rw [h2]; exact List.mem_cons_self p ps
      · exact List.mem_cons_of_mem p h2
    · rw [← h1]; exact hm2
    · intro pp hpp
      rw [← h1]
      rw [hps] at hpp
      rcases List.mem_cons.mp hpp with rfl | hpp'
      · exact h3
      · exact h4 pp hpp'
  refine ⟨part1, ?_⟩
  intro hne p hp hd
  obtain ⟨q, _, hpts, _, _, _, _⟩ := part1 ⟨p, hp, hd⟩
  exact hne hpts

theorem pointA_within_radius :
    distSq rect0 ev0 { id := "a", x := 10, y := 10 } < 18 * 18 := by
  norm_num [distSq, rect0, ev0]

theorem farPoint_append_changes :
    (handlePointerDown (some rect0) "w6f" ev0 farPointState).points
      ≠ farPointState.points := by
  norm_num [handlePointerDown, findNearestPoint, findNearestGo, distSq,
    getRelativeCoordinates, farPointState, initialState, rect0, ev0]

theorem pointerDown_capture_or_append_witness :
    (handlePointerDown (some rect0) "w6" ev0 onePointState).points
        = onePointState.points ∧
    ¬ distSq rect0 ev0 { id := "far", x := 90, y := 90 } < 18 * 18 := by
  obtain ⟨q, hfind, hpts, hdrag, hmem, hrad, hmin⟩ :=
    (pointerDown_capture_or_append rect0 ev0 "w6" onePointState).1
      ⟨{ id := "a", x := 10, y := 10 }, by decide, pointA_within_radius⟩
  refine ⟨hpts, ?_⟩
  exact (pointerDown_capture_or_append rect0 ev0 "w6f" farPointState).2
    farPoint_append_changes { id := "far", x := 90, y := 90 } (by decide)

/-! ### C7 — click-to-add sequences append in order with clamped coordinates -/

theorem applyClicks_points (cs : List ClickEvent) :
    ∀ s : ComponentState, allMiss s cs = true →
      (applyClicks s cs).points = s.points ++ cs.map clickPoint := by
  induction cs with
  | nil =>
    intro s _
    simp [applyClicks]
  | cons c cs ih =>
    intro s hmiss
    unfold allMiss at hmiss
    rw [Bool.and_eq_true] at hmiss
    obtain ⟨hnone, hrest⟩ := hmiss
    rw [Option.isNone_iff_eq_none] at hnone
    have hstep : applyClick c s = { s with points := s.points ++ [clickPoint c] } := by
      unfold applyClick handlePointerDown
      rw [hnone]
      rfl
    show (applyClicks (applyClick c s) cs).points = s.points ++ (c :: cs).map clickPoint
    rw [ih (applyClick c s) hrest, hstep]
    simp

theorem clickPoint_coord_bounds (c : ClickEvent) :
    0 ≤ (clickPoint c).x ∧ (clickPoint c).x ≤ 100 ∧
    0 ≤ (clickPoint c).y ∧ (clickPoint c).y ≤ 100 := by
  unfold clickPoint
  exact ⟨le_min (by norm_num) (le_max_left 0 _), min_le_left _ _,
    le_min (by norm_num) (le_max_left 0 _), min_le_left _ _⟩

/-- C7: a sequence of clicks, each landing outside the capture radius of
every point existing when it is delivered, appends one point per click
at the end of the list in click order, and every appended point's
coordinates are clamped into [0,100] — also when the raw pointer
coordinates fall outside the canvas rectangle. The positive-dimension
hypothesis marks the domain on which the rational embedding is faithful
to the source (JS division by a zero dimension would produce
NaN/Infinity instead). -/
theorem clickSequence_appends_clamped (s : ComponentState) (cs : List ClickEvent)
    (hmiss : allMiss s cs = true)
    (_hdims : ∀ c ∈ cs, 0 < c.rect.width ∧ 0 < c.rect.height) :
    (applyClicks s cs).points = s.points ++ cs.map clickPoint ∧
    ∀ c ∈ cs, 0 ≤ (clickPoint c).x ∧ (clickPoint c).x ≤ 100 ∧
      0 ≤ (clickPoint c).y ∧ (clickPoint c).y ≤ 100 :=
  ⟨applyClicks_points cs s hmiss, fun c _ => clickPoint_coord_bounds c⟩

theorem clicks_all_miss :
    allMiss initialState [click1, click2] = true := by
  norm_num [allMiss, applyClick, handlePointerDown, findNearestPoint, findNearestGo,
    distSq, getRelativeCoordinates, clickPoint, initialState, rect0, ev0,
    click1, click2]

theorem clickSequence_appends_clamped_witness :
    (applyClicks initialState [click1, click2]).points
        = initialState.points ++ [click1, click2].map clickPoint ∧
    0 ≤ (clickPoint click2).x ∧ (clickPoint click2).x ≤ 100 ∧
    0 ≤ (clickPoint click2).y ∧ (clickPoint click2).y ≤ 100 := by
  have h := clickSequence_appends_clamped initialState [click1, click2]
    clicks_all_miss (by decide)
  exact ⟨h.1, h.2 click2 (by decide)⟩

/-! ### C8 — pointer-move during a drag updates only the dragged point -/

/-- C8: while a point id is marked as being dragged, a pointer-move
replaces only that point's coordinates with the clamped relative
position; the length of the list, every index's id (hence the order),
and every point whose id is not the dragged one are unchanged — in
particular the drag never creates a point. -/
theorem pointerMove_updates_only_dragged (r : Rect) (e : PointerEvent)
    (s : ComponentState) (d : String) (x y : ℚ)
    (hdrag : s.draggingId = some d)
    (hrel : getRelativeCoordinates (some r) e = some (x, y)) :
    (handlePointerMove (some r) e s).points.length = s.points.length ∧
    (0 ≤ x ∧ x ≤ 100 ∧ 0 ≤ y ∧ y ≤ 100) ∧
    ∀ i : Nat,
      ((handlePointerMove (some r) e s).points[i]?).map ChartPoint.id
          = (s.points[i]?).map ChartPoint.id ∧
      (∀ p : ChartPoint, s.points[i]? = some p → p.id ≠ d →
        (handlePointerMove (some r) e s).points[i]? = some p) ∧
      (∀ p : ChartPoint, s.points[i]? = some p → p.id = d →
        (handlePointerMove (some r) e s).points[i]?
            = some { p with x := x, y := y }) := by
  have hxy : x = min 100 (max 0 ((e.clientX - r.left) / r.width * 100)) ∧
      y = min 100 (max 0 ((e.clientY - r.top) / r.height * 100)) := by
    have h0 : getRelativeCoordinates (some r) e
        = some (min 100 (max 0 ((e.clientX - r.left) / r.width * 100)),
                min 100 (max 0 ((e.clientY - r.top) / r.height * 100))) := rfl
    rw [h0] at hrel
    have hp := Option.some.inj hrel
    exact ⟨(congrArg Prod.fst hp).symm, (congrArg Prod.snd hp).symm⟩
  have hbx : 0 ≤ x ∧ x ≤ 100 := by
    rw [hxy.1]
    exact ⟨le_min (by norm_num) (le_max_left 0 _), min_le_left _ _⟩
  have hby : 0 ≤ y ∧ y ≤ 100 := by
    rw [hxy.2]
    exact ⟨le_min (by norm_num) (le_max_left 0 _), min_le_left _ _⟩
  have hpm : (handlePointerMove (some r) e s).points
      = s.points.map fun q => if q.id = d then { q with x := x, y := y } else q := by
    unfold handlePointerMove
    rw [hdrag, hrel]
  refine ⟨by rw [hpm]; exact List.length_map _ _, ⟨hbx.1, hbx.2, hby.1, hby.2⟩, ?_⟩
  intro i
  rw [hpm, List.getElem?_map]
  cases hi : s.points[i]? with
  | none => exact ⟨rfl, fun p hp => absurd hp (by simp), fun p hp => absurd hp (by simp)⟩
  | some p =>
    refine ⟨?_, ?_, ?_⟩
    · by_cases hpd : p.id = d
      · simp [hpd]
      · simp [hpd]
    · intro p' hp' hne
      obtain rfl : p = p' := Option.some.inj hp'
      simp [hne]
    · intro p' hp' heq
      obtain rfl : p = p' := Option.some.inj hp'
      simp [heq]

theorem pointerMove_updates_only_dragged_witness :
    (handlePointerMove (some rect0) ev9 dragState8).points.length
        = dragState8.points.length ∧
    (0 ≤ (60:ℚ) ∧ (60:ℚ) ≤ 100 ∧ 0 ≤ (60:ℚ) ∧ (60:ℚ) ≤ 100) := by
  have h := pointerMove_updates_only_dragged rect0 ev9 dragState8 "a" 60 60
    rfl ev9_relative
  exact ⟨h.1, h.2.1⟩
